import Mathlib

/-!
Formal model of the live-trading engine in `src/model/mt5.py`
(`MT5LiveDataFeed` and `LiveTradingStrategy`), embedded shallowly.

Modelling conventions:

* Python floats are modelled as exact rationals (`ℚ`); an indicator reading
  that can be `NaN`/non-finite is modelled as `Option ℚ`, `none` standing for
  the non-finite case.
* Broker (MetaTrader 5) calls are modelled as oracle responses supplied per
  decision cycle: `Except String (Option α)` distinguishes a raised exception
  (`.error`), a Python `None` return (`.ok none`) and a value (`.ok (some a)`).
* A Python exception that propagates uncaught out of a function is modelled by
  the function returning `.error`; a function whose body catches every
  exception is total and returns plain data.
* Timestamps are epoch seconds (`ℕ`); the minute bucket obtained by
  `datetime.replace(second=0, microsecond=0)` is modelled as `time / 60`.
-/

namespace MT5Live

/-- Python `round` to an integer: round half to even (banker's rounding). -/
def roundHalfEven (x : ℚ) : ℤ :=
  let f := ⌊x⌋
  let r := x - (f : ℚ)
  if r < 1 / 2 then f
  else if 1 / 2 < r then f + 1
  else if f % 2 = 0 then f else f + 1

/-- Python `round(x, n)`: round to `n` decimal places, half to even. -/
def pyRoundTo (n : ℕ) (x : ℚ) : ℚ :=
  (roundHalfEven (x * (10 : ℚ) ^ n) : ℚ) / (10 : ℚ) ^ n

/-- Python `int(x)` applied to a float: truncation toward zero. -/
def pyTrunc (x : ℚ) : ℤ :=
  if 0 ≤ x then ⌊x⌋ else ⌈x⌉

/-- MT5 order direction (`ORDER_TYPE_BUY` / `ORDER_TYPE_SELL`); positions use
the same two-valued type (`POSITION_TYPE_BUY` / `POSITION_TYPE_SELL`). -/
inductive OrderType where
  | buy
  | sell
  deriving DecidableEq

/-- The fields of `mt5.symbol_info(...)` read by the strategy. -/
structure SymbolInfo where
  point : ℚ
  digits : ℕ
  volume_step : ℚ
  volume_min : ℚ
  volume_max : ℚ
  trade_contract_size : ℚ
  trade_stops_level : ℤ
  deriving DecidableEq

/-- The fields of `mt5.symbol_info_tick(...)` read by the code. -/
structure Tick where
  time : ℕ
  bid : ℚ
  ask : ℚ
  deriving DecidableEq

/-- The fields of `mt5.account_info()` read by the strategy. -/
structure AccountInfo where
  balance : ℚ
  margin_free : ℚ
  deriving DecidableEq

/-- One entry of `mt5.positions_get(symbol=...)`. -/
structure Position where
  ptype : OrderType
  volume : ℚ
  profit : ℚ
  deriving DecidableEq

/-- The fields of an `mt5.order_send` result read by the strategy. -/
structure OrderResult where
  retcode : ℕ
  price : ℚ
  comment : String
  deriving DecidableEq

/-- `mt5.TRADE_RETCODE_DONE`. -/
def TRADE_RETCODE_DONE : ℕ := 10009

/-- The request dict built in `_send_order` (src/model/mt5.py lines 276-283);
`type_time`/`type_filling` are the constants GTC / IOC and are omitted. -/
structure OrderRequest where
  symbol : String
  volume : ℚ
  otype : OrderType
  price : ℚ
  deviation : ℕ
  magic : ℕ
  comment : String
  sl : Option ℚ
  tp : Option ℚ
  deriving DecidableEq

/-- `LiveTradingStrategy.params` (src/model/mt5.py lines 179-184). -/
structure Params where
  fast : ℕ
  slow : ℕ
  risk_pct : ℚ
  atr_period : ℕ
  stop_atr_mult : ℚ
  take_profit_mult : ℚ
  symbol : String
  lot_min : ℚ
  lot_max : ℚ
  max_positions : ℤ

/-- The default parameter values of `LiveTradingStrategy`. -/
def defaultParams : Params :=
  { fast := 20, slow := 50, risk_pct := 2 / 100, atr_period := 14,
    stop_atr_mult := 2, take_profit_mult := 3, symbol := "XAUUSD",
    lot_min := 1 / 100, lot_max := 10, max_positions := 1 }

/-- The mutable per-strategy state (src/model/mt5.py lines 191-192). -/
structure StratState where
  position_count : ℤ
  last_signal_minute : Option ℕ
  deriving DecidableEq

/-- State set up in `LiveTradingStrategy.__init__`. -/
def initialStratState : StratState :=
  { position_count := 0, last_signal_minute := none }

/-- Result of a strategy-internal helper: the new state, the order requests
passed to `mt5.order_send`, and the log lines produced. -/
structure StratOut where
  state : StratState
  orders : List OrderRequest
  logs : List String
  deriving DecidableEq

/-- Result of one decision cycle; `acted` records whether the cycle took a
non-`None` branch (called `_open_long` or `_close_all`). -/
structure CycleOut where
  state : StratState
  orders : List OrderRequest
  logs : List String
  acted : Bool
  deriving DecidableEq

/-- The per-cycle inputs `next` reads from the data/indicator lines:
the bar timestamp and close, the `CrossOver` line value, the ATR line value
(`none` = non-finite), and `len(self.sma_slow)` (bars processed so far). -/
structure CycleInput where
  time : ℕ
  close : ℚ
  crossover : ℚ
  atr : Option ℚ
  histLen : ℕ

/-- Oracle for the broker calls one decision cycle can make.  `_send_order`
is invoked once per submission attempt; its three inner calls are indexed by
the attempt number (0 for `_open_long`; 0,1,... across the `_close_all` loop). -/
structure BrokerCycle where
  account_info : Except String (Option AccountInfo)
  symbol_info : Except String (Option SymbolInfo)
  symbol_info_tick : Except String (Option Tick)
  order_calc_margin : Except String (Option ℚ)
  account_info2 : Except String (Option AccountInfo)
  positions_get : Except String (Option (List Position))
  tickSend : ℕ → Except String (Option Tick)
  infoSend : ℕ → Except String (Option SymbolInfo)
  orderSend : ℕ → OrderRequest → Except String (Option OrderResult)

/-- Minute bucket of a timestamp (`now.replace(second=0, microsecond=0)`). -/
def minuteBucket (t : ℕ) : ℕ := t / 60

/-- Result of `_send_order`: the returned value (`none` models Python `None`,
reached when an inner exception was caught or `order_send` returned `None`),
the requests actually passed to `order_send`, and log lines. -/
structure SendOut where
  res : Option OrderResult
  reqs : List OrderRequest
  logs : List String

/-- `LiveTradingStrategy._send_order` (src/model/mt5.py lines 269-287).
Every exception inside is caught (`except Exception`) and turns into a logged
`None` result, so this function is total. -/
def sendOrder (symbol : String) (lot : ℚ) (typ : OrderType)
    (slPoints : Option ℤ) (tpPoints : Option ℚ) (comment : String)
    (tickResp : Except String (Option Tick))
    (infoResp : Except String (Option SymbolInfo))
    (sendResp : OrderRequest → Except String (Option OrderResult)) : SendOut :=
  match tickResp with
  | .error e => { res := none, reqs := [], logs := ["Order error: " ++ e] }
  | .ok none => { res := none, reqs := [], logs := ["Order error: No tick data"] }
  | .ok (some tick) =>
    let price := match typ with | .buy => tick.ask | .sell => tick.bid
    match infoResp with
    | .error e => { res := none, reqs := [], logs := ["Order error: " ++ e] }
    | .ok none => { res := none, reqs := [], logs := ["Order error: AttributeError"] }
    | .ok (some info) =>
      let req : OrderRequest :=
        { symbol := symbol, volume := lot, otype := typ,
          price := pyRoundTo info.digits price, deviation := 20, magic := 20250620,
          comment := comment,
          sl :=
            match slPoints with
            | none => none
            | some v =>
              if v = 0 then none
              else if typ = .buy then some (pyRoundTo info.digits (price - (v : ℚ) * info.point))
              else some (pyRoundTo info.digits (price + (v : ℚ) * info.point)),
          tp :=
            match tpPoints with
            | none => none
            | some v =>
              if v = 0 then none
              else if typ = .buy then some (pyRoundTo info.digits (price + v * info.point))
              else some (pyRoundTo info.digits (price - v * info.point)) }
      match sendResp req with
      | .error e => { res := none, reqs := [req], logs := ["Order error: " ++ e] }
      | .ok r => { res := r, reqs := [req], logs := [] }

/-- `lot = risk_amt / (stop_dist * sym_info.trade_contract_size)`
(src/model/mt5.py line 237). -/
def rawLot (risk_amt stop_dist contract_size : ℚ) : ℚ :=
  risk_amt / (stop_dist * contract_size)

/-- `lot = min(lot, free / margin_per_lot)` (src/model/mt5.py line 240),
applied only when `margin_per_lot > 0`. -/
def capLot (lot margin_per_lot margin_free : ℚ) : ℚ :=
  min lot (margin_free / margin_per_lot)

/-- Lines 242-244 of src/model/mt5.py: clamp to `[volume_min, volume_max]`,
floor to a multiple of `volume_step`, round to 2 decimal places. -/
def steppedLot (lot : ℚ) (si : SymbolInfo) : ℚ :=
  let clamped := max si.volume_min (min lot si.volume_max)
  let floored := (⌊clamped / si.volume_step⌋ : ℚ) * si.volume_step
  pyRoundTo 2 floored

/-- Tail of `_open_long` after the volume has been risk-sized and
margin-capped (src/model/mt5.py lines 241-252): volume clamping/stepping,
stop/target points, submission, and the position-count update.  Divisions by
zero raise in Python and are caught by the surrounding `except`, producing a
logged failure and no order. -/
def openLongSized (p : Params) (lot1 stop_dist : ℚ) (sym_info : SymbolInfo)
    (b : BrokerCycle) (st : StratState) : StratOut :=
  if sym_info.volume_step = 0 then
    { state := st, orders := [], logs := ["Open error: ZeroDivisionError"] }
  else
    let lot := steppedLot lot1 sym_info
    if sym_info.point = 0 then
      { state := st, orders := [], logs := ["Open error: ZeroDivisionError"] }
    else
      let sl_pts := max (pyTrunc (stop_dist / sym_info.point)) (sym_info.trade_stops_level + 5)
      let tp_pts := (sl_pts : ℚ) * p.take_profit_mult
      let s := sendOrder p.symbol lot .buy (some sl_pts) (some tp_pts) ""
        (b.tickSend 0) (b.infoSend 0) (b.orderSend 0)
      match s.res with
      | none =>
        { state := st, orders := s.reqs, logs := s.logs ++ ["Open error: AttributeError"] }
      | some res =>
        if res.retcode = TRADE_RETCODE_DONE then
          { state := { st with position_count := st.position_count + 1 },
            orders := s.reqs, logs := s.logs ++ ["Open long"] }
        else
          { state := st, orders := s.reqs, logs := s.logs ++ ["Open failed: " ++ res.comment] }

/-- `LiveTradingStrategy._open_long` (src/model/mt5.py lines 222-254).  The
ATR guard is outside the `try`; everything after it is inside `try/except`,
so every failure (broker exception, `None` return dereference, division by
zero) becomes a logged line and the function is total.  The `price`/`now`
arguments are unused in the source body and omitted from the state here. -/
def openLong (p : Params) (_price balance : ℚ) (atr : Option ℚ)
    (b : BrokerCycle) (st : StratState) : StratOut :=
  match atr with
  | none => { state := st, orders := [], logs := [] }
  | some a =>
    if a ≤ 0 then { state := st, orders := [], logs := [] }
    else
      let stop_dist := a * p.stop_atr_mult
      match b.symbol_info with
      | .error e => { state := st, orders := [], logs := ["Open error: " ++ e] }
      | .ok none => { state := st, orders := [], logs := ["Open error: No symbol info"] }
      | .ok (some sym_info) =>
        match b.symbol_info_tick with
        | .error e => { state := st, orders := [], logs := ["Open error: " ++ e] }
        | .ok none => { state := st, orders := [], logs := [] }
        | .ok (some _tick) =>
          match b.order_calc_margin with
          | .error e => { state := st, orders := [], logs := ["Open error: " ++ e] }
          | .ok marginQ =>
            if stop_dist * sym_info.trade_contract_size = 0 then
              { state := st, orders := [], logs := ["Open error: ZeroDivisionError"] }
            else
              let lot0 := rawLot (balance * p.risk_pct) stop_dist sym_info.trade_contract_size
              match marginQ with
              | none => { state := st, orders := [], logs := ["Open error: TypeError"] }
              | some margin_per_lot =>
                if 0 < margin_per_lot then
                  match b.account_info2 with
                  | .error e => { state := st, orders := [], logs := ["Open error: " ++ e] }
                  | .ok none => { state := st, orders := [], logs := ["Open error: AttributeError"] }
                  | .ok (some acct2) =>
                    openLongSized p (capLot lot0 margin_per_lot acct2.margin_free)
                      stop_dist sym_info b st
                else openLongSized p lot0 stop_dist sym_info b st

/-- The `for p in pos` loop of `_close_all` (src/model/mt5.py lines 260-267).
`_send_order` never raises, but when it returns `None` the subsequent
`res.retcode` attribute access raises `AttributeError`, which `_close_all`
does not catch: the `.error` result models that propagation. -/
def closeAllLoop (p : Params) (reason : String) (b : BrokerCycle) :
    ℕ → List Position → StratState → List OrderRequest → List String →
    Except String StratOut
  | _, [], st, reqs, logs => .ok { state := st, orders := reqs, logs := logs }
  | i, pos :: rest, st, reqs, logs =>
    let typ : OrderType := if pos.ptype = .buy then .sell else .buy
    let s := sendOrder p.symbol pos.volume typ none none reason
      (b.tickSend i) (b.infoSend i) (b.orderSend i)
    match s.res with
    | none => .error "AttributeError"
    | some res =>
      if res.retcode = TRADE_RETCODE_DONE then
        closeAllLoop p reason b (i + 1) rest
          { st with position_count := max 0 (st.position_count - 1) }
          (reqs ++ s.reqs) (logs ++ s.logs ++ ["Closed: " ++ reason])
      else
        closeAllLoop p reason b (i + 1) rest st
          (reqs ++ s.reqs) (logs ++ s.logs ++ ["Close failed: " ++ res.comment])

/-- `LiveTradingStrategy._close_all` (src/model/mt5.py lines 256-267).
There is no `try/except` here: an exception from `mt5.positions_get` (or
from the loop body) propagates to the caller. -/
def closeAll (p : Params) (reason : String) (b : BrokerCycle) (st : StratState) :
    Except String StratOut :=
  match b.positions_get with
  | .error e => .error e
  | .ok none => .ok { state := st, orders := [], logs := [] }
  | .ok (some ps) =>
    if ps.isEmpty then .ok { state := st, orders := [], logs := [] }
    else closeAllLoop p reason b 0 ps st [] []

/-- `LiveTradingStrategy.next` (src/model/mt5.py lines 198-220): the
minute-bucket debounce, the warm-up guard on `len(self.sma_slow)`, the
account fetch, and the golden-cross / death-cross dispatch.  Note that
`self.last_signal_minute = minute` runs after the `_open_long`/`_close_all`
call, and only if that call returned normally. -/
def nextCycle (p : Params) (inp : CycleInput) (b : BrokerCycle) (st : StratState) :
    Except String CycleOut :=
  if st.last_signal_minute = some (minuteBucket inp.time) then
    .ok { state := st, orders := [], logs := [], acted := false }
  else if inp.histLen < p.slow then
    .ok { state := st, orders := [], logs := [], acted := false }
  else
    match b.account_info with
    | .error e => .error e
    | .ok none =>
      .ok { state := st, orders := [], logs := ["Cannot fetch account info"], acted := false }
    | .ok (some info) =>
      if 0 < inp.crossover ∧ st.position_count < p.max_positions then
        let r := openLong p inp.close info.balance inp.atr b st
        .ok { state := { r.state with last_signal_minute := some (minuteBucket inp.time) },
              orders := r.orders, logs := r.logs, acted := true }
      else if inp.crossover < 0 then
        match closeAll p "DeathCross" b st with
        | .error e => .error e
        | .ok r =>
          .ok { state := { r.state with last_signal_minute := some (minuteBucket inp.time) },
                orders := r.orders, logs := r.logs, acted := true }
      else .ok { state := st, orders := [], logs := [], acted := false }

/-- Modelled from the spec: the backtrader framework (outside src/) first
invokes a strategy's `next` once every registered indicator line has a full
lookback window — the `CrossOver` of the two SMAs needs `max fast slow + 1`
bars and the Wilder-smoothed ATR needs `atr_period + 1` bars; before that it
invokes the no-op `prenext` (spec §2 `IndicatorEngine`, §4.2). -/
def strategyMinPeriod (p : Params) : ℕ :=
  max (max p.fast p.slow + 1) (p.atr_period + 1)

/-- One framework dispatch: `prenext` (a no-op) before the strategy's minimum
period is reached, `next` afterwards. -/
def driverCycle (p : Params) (inp : CycleInput) (b : BrokerCycle) (st : StratState) :
    Except String CycleOut :=
  if inp.histLen < strategyMinPeriod p then
    .ok { state := st, orders := [], logs := [], acted := false }
  else nextCycle p inp b st

/-- Bookkeeping for one processed decision cycle in a run. -/
structure CycleStep where
  bucket : ℕ
  attempted : Bool
  deriving DecidableEq

/-- The decision loop: bars are consumed one at a time; an uncaught exception
in a cycle aborts the whole run (backtrader tears the strategy down), so no
further cycles execute after it. -/
def runTrace (p : Params) :
    List (CycleInput × BrokerCycle) → StratState → StratState × List CycleStep
  | [], st => (st, [])
  | ib :: rest, st =>
    match driverCycle p ib.1 ib.2 st with
    | .error _ => (st, [{ bucket := minuteBucket ib.1.time, attempted := true }])
    | .ok out =>
      let r := runTrace p rest out.state
      (r.1, { bucket := minuteBucket ib.1.time, attempted := out.acted } :: r.2)

/-- Minute buckets of the cycles that attempted execution of a non-`None`
decision. -/
def attemptedBuckets (steps : List CycleStep) : List ℕ :=
  (steps.filter fun s => s.attempted).map fun s => s.bucket

/-- How many of the order results `R 0, ..., R (n-1)` starting at index `i0`
report `TRADE_RETCODE_DONE`. -/
def doneCnt (R : ℕ → OrderResult) : ℕ → ℕ → ℕ
  | _, 0 => 0
  | i0, n + 1 =>
    (if (R i0).retcode = TRADE_RETCODE_DONE then 1 else 0) + doneCnt R (i0 + 1) n

/-- The opposing direction used by `_close_all`. -/
def opposite : OrderType → OrderType
  | OrderType.buy => OrderType.sell
  | OrderType.sell => OrderType.buy

/-- One element of the array returned by `mt5.copy_rates_range` /
`mt5.copy_rates_from_pos`. -/
structure RateBar where
  time : ℕ
  bopen : ℚ
  bhigh : ℚ
  blow : ℚ
  bclose : ℚ
  tick_volume : ℚ
  deriving DecidableEq

/-- A dict appended to `MT5LiveDataFeed._data_queue`. -/
structure QBar where
  time : ℕ
  qopen : ℚ
  qhigh : ℚ
  qlow : ℚ
  qclose : ℚ
  qvolume : ℚ
  openinterest : ℚ
  deriving DecidableEq

/-- The dict built from a rate record (src/model/mt5.py lines 88-93, 145-150). -/
def toQBar (r : RateBar) : QBar :=
  { time := r.time, qopen := r.bopen, qhigh := r.bhigh, qlow := r.blow,
    qclose := r.bclose, qvolume := r.tick_volume, openinterest := 0 }

/-- The mutable feed state (src/model/mt5.py lines 50-52):
`deque(maxlen=10000)` plus the two last-accepted-timestamp watermarks. -/
structure FeedState where
  data_queue : List QBar
  last_tick_time : ℕ
  last_bar_time : ℕ
  deriving DecidableEq

/-- `deque(maxlen=10000).append`: drop the oldest element when full. -/
def dequeAppend (q : List QBar) (x : QBar) : List QBar :=
  if q.length < 10000 then q ++ [x] else q.tail ++ [x]

/-- Feed state right after the assignments in `MT5LiveDataFeed.__init__`. -/
def initialFeedState : FeedState :=
  { data_queue := [], last_tick_time := 0, last_bar_time := 0 }

/-- `MT5LiveDataFeed._init_historical_data` (src/model/mt5.py lines 76-94):
`rates` is the `copy_rates_range` response (`none` = Python `None`).  Bars are
appended to the buffer; the watermarks are not touched. -/
def initHistoricalData (historical_days : ℤ) (rates : Option (List RateBar))
    (st : FeedState) : FeedState :=
  if historical_days ≤ 0 then st
  else
    match rates with
    | none => st
    | some rs =>
      if rs.length = 0 then st
      else { st with data_queue := rs.foldl (fun q r => dequeAppend q (toQBar r)) st.data_queue }

/-- `MT5LiveDataFeed._fetch_bar_data` (src/model/mt5.py lines 136-153):
take the newest of the fetched bars, accept it only if its timestamp is
strictly newer than `_last_bar_time`.  The Bool reports acceptance. -/
def fetchBarData (rates : Option (List RateBar)) (st : FeedState) : FeedState × Bool :=
  match rates with
  | none => (st, false)
  | some rs =>
    match rs.getLast? with
    | none => (st, false)
    | some latest =>
      if latest.time ≤ st.last_bar_time then (st, false)
      else
        ({ data_queue := dequeAppend st.data_queue (toQBar latest),
           last_tick_time := st.last_tick_time,
           last_bar_time := latest.time }, true)

/-- `MT5LiveDataFeed._fetch_tick_data` (src/model/mt5.py lines 122-134):
accept a tick only if its timestamp is strictly newer than `_last_tick_time`;
an accepted tick is queued as a degenerate bar at the bid price. -/
def fetchTickData (tick : Option Tick) (st : FeedState) : FeedState × Bool :=
  match tick with
  | none => (st, false)
  | some t =>
    if t.time ≤ st.last_tick_time then (st, false)
    else
      ({ data_queue := dequeAppend st.data_queue
           { time := t.time, qopen := t.bid, qhigh := t.bid, qlow := t.bid,
             qclose := t.bid, qvolume := 1, openinterest := 0 },
         last_tick_time := t.time,
         last_bar_time := st.last_bar_time }, true)

/-- The recorded last-acted minute as a zero-or-one element list (used to
state the debounce invariant). -/
def lastOpt (st : StratState) : List ℕ :=
  match st.last_signal_minute with
  | none => []
  | some m => [m]

/-- Modelled from the spec (§4.4 step 7): `stopPoints =
max(round(stopDistance / point), minStopLevelPoints + safetyBuffer)` with a
safety buffer of 5 points, reading the spec's `round` as round-to-nearest.
This follows the spec's words, to be compared with the source's computation
(which uses `int(...)`, truncation toward zero). -/
def slPointsSpec (stop_dist : ℚ) (si : SymbolInfo) : ℤ :=
  max (roundHalfEven (stop_dist / si.point)) (si.trade_stops_level + 5)

/-- A broker snapshot with standard XAUUSD-like constraints. -/
def siStd : SymbolInfo :=
  { point := 1 / 100, digits := 2, volume_step := 1 / 100, volume_min := 1 / 100,
    volume_max := 10, trade_contract_size := 100, trade_stops_level := 10 }

/-- Constraints whose volume step does not divide the volume minimum
(volumeMin = 0.1, volumeStep = 0.3). -/
def siBadStep : SymbolInfo :=
  { point := 1 / 100, digits := 2, volume_step := 3 / 10, volume_min := 1 / 10,
    volume_max := 10, trade_contract_size := 100, trade_stops_level := 10 }

/-- Constraints with a whole-unit point, used to separate truncation from
rounding in the stop-point computation. -/
def si7 : SymbolInfo :=
  { point := 1, digits := 0, volume_step := 1 / 100, volume_min := 1 / 100,
    volume_max := 10, trade_contract_size := 100, trade_stops_level := 0 }

def tickStd : Tick := { time := 60, bid := 1999, ask := 2000 }

def acctStd : AccountInfo := { balance := 10000, margin_free := 5000 }

/-- Account snapshot for the margin-cap scenario (`marginFree = 50`). -/
def acctLowFree : AccountInfo := { balance := 10000, margin_free := 50 }

def resDone : OrderResult := { retcode := 10009, price := 2000, comment := "" }

def resFail : OrderResult := { retcode := 10013, price := 0, comment := "rejected" }

def posBuyHalf : Position := { ptype := OrderType.buy, volume := 1 / 2, profit := 0 }

/-- Builds a well-behaved broker oracle from the varying pieces. -/
def mkBroker (si : SymbolInfo) (acct : AccountInfo)
    (marginResp : Except String (Option ℚ))
    (posResp : Except String (Option (List Position)))
    (sendR : ℕ → OrderResult) : BrokerCycle :=
  { account_info := .ok (some acct), symbol_info := .ok (some si),
    symbol_info_tick := .ok (some tickStd), order_calc_margin := marginResp,
    account_info2 := .ok (some acct), positions_get := posResp,
    tickSend := fun _ => .ok (some tickStd), infoSend := fun _ => .ok (some si),
    orderSend := fun i _ => .ok (some (sendR i)) }

/-- Broker whose positions query raises. -/
def c1Broker : BrokerCycle :=
  mkBroker siStd acctStd (.ok (some 0)) (.error "network lost") fun _ => resDone

/-- Broker with the awkward volume constraints and no margin requirement. -/
def c2Broker : BrokerCycle :=
  mkBroker siBadStep acctStd (.ok (some 0)) (.ok none) fun _ => resDone

/-- Broker used for the stop-point computation scenario. -/
def c7Broker : BrokerCycle :=
  mkBroker si7 acctStd (.ok (some 0)) (.ok none) fun _ => resDone

/-- Broker reporting no per-lot margin requirement. -/
def c8BrokerNoMargin : BrokerCycle :=
  mkBroker siStd acctLowFree (.ok (some 0)) (.ok none) fun _ => resDone

/-- Broker reporting a per-lot margin of 200 with 50 free margin. -/
def c8BrokerMargin : BrokerCycle :=
  mkBroker siStd acctLowFree (.ok (some 200)) (.ok none) fun _ => resDone

/-- Broker reporting one open BUY position of volume 0.5, whose sends are
confirmed done. -/
def c4Broker : BrokerCycle :=
  mkBroker siStd acctStd (.ok (some 0)) (.ok (some [posBuyHalf])) fun _ => resDone

/-- Broker reporting one open BUY position whose close order is rejected
(a result is returned, but not `TRADE_RETCODE_DONE`). -/
def c3Broker : BrokerCycle :=
  mkBroker siStd acctStd (.ok (some 0)) (.ok (some [posBuyHalf])) fun _ => resFail

/-- Broker with no open positions. -/
def quietBroker : BrokerCycle :=
  mkBroker siStd acctStd (.ok (some 0)) (.ok none) fun _ => resDone

/-- A death-cross decision cycle input at minute bucket 1. -/
def inpDeath : CycleInput :=
  { time := 60, close := 2000, crossover := -1, atr := some 1, histLen := 60 }

/-- A second death-cross input in the same minute bucket (second 90). -/
def inpDeath2 : CycleInput :=
  { time := 90, close := 2001, crossover := -1, atr := some 1, histLen := 61 }

/-- A golden-cross decision cycle input at minute bucket 1. -/
def inpGold : CycleInput :=
  { time := 60, close := 2000, crossover := 1, atr := some 1, histLen := 60 }

/-- An input with history still inside the warm-up window. -/
def inpShort : CycleInput :=
  { time := 60, close := 2000, crossover := 1, atr := some 1, histLen := 49 }

/-- A strategy state with one locally counted open position. -/
def stOne : StratState := { position_count := 1, last_signal_minute := none }

/-- A preloaded historical bar with timestamp 100. -/
def prebar100 : RateBar :=
  { time := 100, bopen := 1, bhigh := 1, blow := 1, bclose := 1, tick_volume := 1 }

/-- A live bar with timestamp 50, older than the preloaded bar. -/
def livebar50 : RateBar :=
  { time := 50, bopen := 2, bhigh := 2, blow := 2, bclose := 2, tick_volume := 1 }

/-! ## Helper lemmas about the Python numeric primitives -/

theorem roundHalfEven_intCast (m : ℤ) : roundHalfEven (m : ℚ) = m := by
  norm_num [roundHalfEven]

theorem pyRoundTo_mul_int (n : ℕ) (x : ℚ) (m : ℤ) (h : x * (10 : ℚ) ^ n = m) :
    pyRoundTo n x = x := by
  have h10 : ((10 : ℚ) ^ n) ≠ 0 := by positivity
  rw [pyRoundTo, h, roundHalfEven_intCast, ← h, mul_div_assoc, div_self h10, mul_one]

/-! ## C6 -/

/-- C6: if the ATR reading at decision time is non-finite (modelled `none`) or
≤ 0, `_open_long` constructs no order request, submits nothing, logs nothing
and leaves the strategy state unchanged, whatever the other inputs. -/
theorem C6_invalid_atr_no_order (p : Params) (pr bal : ℚ) (atr : Option ℚ)
    (b : BrokerCycle) (st : StratState)
    (h : atr = none ∨ ∃ a, atr = some a ∧ a ≤ 0) :
    openLong p pr bal atr b st = { state := st, orders := [], logs := [] } := by
  rcases h with h | ⟨a, ha, hle⟩
  · subst h; rfl
  · subst ha; simp [openLong, hle]

theorem C6_witness :
    (some (0 : ℚ) = none ∨ ∃ a, some (0 : ℚ) = some a ∧ a ≤ 0) ∧
      openLong defaultParams 2000 10000 (some 0) quietBroker initialStratState =
        { state := initialStratState, orders := [], logs := [] } :=
  ⟨Or.inr ⟨0, rfl, le_refl 0⟩,
    C6_invalid_atr_no_order defaultParams 2000 10000 (some 0) quietBroker initialStratState
      (Or.inr ⟨0, rfl, le_refl 0⟩)⟩

/-! ## C5 -/

/-- C5: while the input history is shorter than
max(fastPeriod, slowPeriod, atrPeriod), a decision cycle emits no signal and
submits no order: the framework dispatch (whose minimum period exceeds every
indicator period) is a no-op and the state is untouched. -/
theorem C5_no_signal_before_warmup (p : Params) (inp : CycleInput) (b : BrokerCycle)
    (st : StratState) (h : inp.histLen < max p.fast (max p.slow p.atr_period)) :
    driverCycle p inp b st = .ok { state := st, orders := [], logs := [], acted := false } := by
  have h1 : p.fast ≤ max p.fast p.slow + 1 := Nat.le_succ_of_le (le_max_left _ _)
  have h2 : p.slow ≤ max p.fast p.slow + 1 := Nat.le_succ_of_le (le_max_right _ _)
  have h3 : max p.fast (max p.slow p.atr_period) ≤ strategyMinPeriod p := by
    unfold strategyMinPeriod
    exact max_le (le_trans h1 (le_max_left _ _))
      (max_le (le_trans h2 (le_max_left _ _)) (le_trans (Nat.le_succ _) (le_max_right _ _)))
  have hlt : inp.histLen < strategyMinPeriod p := lt_of_lt_of_le h h3
  simp [driverCycle, hlt]

theorem C5_witness :
    inpShort.histLen < max defaultParams.fast (max defaultParams.slow defaultParams.atr_period) ∧
      driverCycle defaultParams inpShort quietBroker initialStratState =
        .ok { state := initialStratState, orders := [], logs := [], acted := false } :=
  ⟨by decide,
    C5_no_signal_before_warmup defaultParams inpShort quietBroker initialStratState (by decide)⟩

/-! ## C1 -/

/-- C1 counterexample: with a death-cross cycle in which
`mt5.positions_get` raises, the exception propagates uncaught out of
`LiveTradingStrategy.next` (`_close_all` has no try/except), so it is not
true that every broker-call exception during close-all is caught inside the
cycle. -/
theorem C1_counterexample :
    nextCycle defaultParams inpDeath c1Broker initialStratState = .error "network lost" := by
  norm_num [nextCycle, closeAll, c1Broker, mkBroker, inpDeath, initialStratState,
    defaultParams, minuteBucket]
  exact fun h => nomatch h

/-- C1 (amended): exceptions raised while calling the broker during order
building and submission — everything inside `_open_long` and `_send_order` —
are caught and converted to logged failures; consequently a cycle that does
not take the close-all branch, and whose balance fetch in `next` does not
itself raise, never propagates an exception.  (Close-all is the exception:
`positions_get` raising, or `_send_order` returning `None` and the
subsequent `res.retcode` dereference, propagates, as the counterexample
shows.) -/
theorem C1_amended_open_path_caught (p : Params) (inp : CycleInput) (b : BrokerCycle)
    (st : StratState)
    (hacct : ∀ e, b.account_info ≠ .error e)
    (hcr : 0 ≤ inp.crossover) :
    ∃ out, nextCycle p inp b st = .ok out := by
  unfold nextCycle
  split
  · exact ⟨_, rfl⟩
  split
  · exact ⟨_, rfl⟩
  split
  next e heq => exact absurd heq (hacct e)
  next => exact ⟨_, rfl⟩
  next info heq =>
    split
    · exact ⟨_, rfl⟩
    · rw [if_neg (not_lt.mpr hcr)]
      exact ⟨_, rfl⟩

theorem C1_witness :
    (∀ e, quietBroker.account_info ≠ .error e) ∧ (0 : ℚ) ≤ inpGold.crossover ∧
      ∃ out, nextCycle defaultParams inpGold quietBroker initialStratState = .ok out :=
  ⟨(fun _ h => nomatch h), by norm_num [inpGold],
    C1_amended_open_path_caught defaultParams inpGold quietBroker initialStratState
      (fun _ h => nomatch h) (by norm_num [inpGold])⟩

/-! ## C8 -/

/-- C8: the raw volume before the clamp/step stage is
`balance × riskFraction / (ATR × stopMultiple × contractSize)`, capped at
`marginFree / perLotMargin` when the per-lot margin is positive; in the spec
scenarios: balance 10000, risk 2 %, ATR 2, stop multiple 2, contract size 100
give stopDistance 4, riskAmount 200 and raw volume 0.5, and marginFree 50
with perLotMargin 200 caps the volume at 0.25 — both checked end-to-end on
the submitted orders. -/
theorem C8_raw_volume :
    (∀ balance rp a sm cs : ℚ,
        rawLot (balance * rp) (a * sm) cs = balance * rp / (a * sm * cs)) ∧
    ((2 : ℚ) * 2 = 4) ∧ ((10000 : ℚ) * (2 / 100) = 200) ∧
    rawLot ((10000 : ℚ) * (2 / 100)) ((2 : ℚ) * 2) 100 = 1 / 2 ∧
    capLot (1 / 2) 200 50 = 1 / 4 ∧
    ((openLong defaultParams 2000 10000 (some 2) c8BrokerNoMargin initialStratState).orders.map
        fun r => r.volume) = [1 / 2] ∧
    ((openLong defaultParams 2000 10000 (some 2) c8BrokerMargin initialStratState).orders.map
        fun r => r.volume) = [1 / 4] :=
  ⟨fun _ _ _ _ _ => rfl, by norm_num, by norm_num,
    by norm_num [rawLot], by norm_num [capLot],
    by norm_num [openLong, openLongSized, sendOrder, steppedLot, rawLot, capLot, pyRoundTo,
      roundHalfEven, pyTrunc, TRADE_RETCODE_DONE, c8BrokerNoMargin, mkBroker, siStd, tickStd,
      acctLowFree, resDone, defaultParams, initialStratState],
    by norm_num [openLong, openLongSized, sendOrder, steppedLot, rawLot, capLot, pyRoundTo,
      roundHalfEven, pyTrunc, TRADE_RETCODE_DONE, c8BrokerMargin, mkBroker, siStd, tickStd,
      acctLowFree, resDone, defaultParams, initialStratState]⟩

/-! ## C9 -/

/-- C9: when the broker reports no open positions (a `None` or an empty
tuple), a close-all decision submits no orders and the only state change of
the cycle is recording the current minute bucket; in particular the local
position counter is not reconciled down. -/
theorem C9_empty_close_all_frame (p : Params) (inp : CycleInput) (b : BrokerCycle)
    (st : StratState) (acct : AccountInfo)
    (hmin : ¬ st.last_signal_minute = some (minuteBucket inp.time))
    (hlen : ¬ inp.histLen < p.slow)
    (hacct : b.account_info = .ok (some acct))
    (hcr : inp.crossover < 0)
    (hpos : b.positions_get = .ok none ∨ b.positions_get = .ok (some [])) :
    nextCycle p inp b st =
      .ok { state := { position_count := st.position_count,
                       last_signal_minute := some (minuteBucket inp.time) },
            orders := [], logs := [], acted := true } := by
  have hno : ¬ (0 < inp.crossover ∧ st.position_count < p.max_positions) := by
    rintro ⟨h1, -⟩
    exact absurd hcr (not_lt.mpr (le_of_lt h1))
  have hclose : closeAll p "DeathCross" b st = .ok { state := st, orders := [], logs := [] } := by
    rcases hpos with hp | hp <;> simp [closeAll, hp]
  simp [nextCycle, hmin, hlen, hacct, hno, hcr, hclose]

theorem C9_witness :
    (quietBroker.positions_get = .ok none ∨ quietBroker.positions_get = .ok (some [])) ∧
      nextCycle defaultParams inpDeath quietBroker initialStratState =
        .ok { state := { position_count := 0, last_signal_minute := some 1 },
              orders := [], logs := [], acted := true } :=
  ⟨Or.inl rfl,
    C9_empty_close_all_frame defaultParams inpDeath quietBroker initialStratState acctStd
      (by decide) (by decide) rfl (by norm_num [inpDeath]) (Or.inl rfl)⟩

/-! ## C10 -/

/-- C10: historical preload appends bars to the buffer but leaves both
last-accepted-timestamp watermarks at their initial value 0; consequently the
first live bar fetch is accepted exactly when its timestamp is positive —
regardless of the preloaded bars' timestamps, so acceptance does not require
being strictly newer than the last preloaded bar — while among live-fetched
bars themselves a subsequent fetch is accepted exactly when strictly newer
than the last accepted one. -/
theorem C10_preload_watermarks (days : ℤ) (rates : Option (List RateBar)) :
    (initHistoricalData days rates initialFeedState).last_bar_time = 0 ∧
    (initHistoricalData days rates initialFeedState).last_tick_time = 0 ∧
    (∀ (rs2 : List RateBar) (latest2 : RateBar), rs2.getLast? = some latest2 →
      ((fetchBarData (some rs2) (initHistoricalData days rates initialFeedState)).2 = true ↔
        0 < latest2.time)) ∧
    (∀ (st : FeedState) (rs2 : List RateBar) (latest2 : RateBar),
      rs2.getLast? = some latest2 →
      (fetchBarData (some rs2) st).2 = true →
      ∀ (rs3 : List RateBar) (latest3 : RateBar), rs3.getLast? = some latest3 →
        ((fetchBarData (some rs3) (fetchBarData (some rs2) st).1).2 = true ↔
          latest2.time < latest3.time)) := by
  have hkeep : ∀ st : FeedState,
      (initHistoricalData days rates st).last_bar_time = st.last_bar_time ∧
      (initHistoricalData days rates st).last_tick_time = st.last_tick_time := by
    intro st
    unfold initHistoricalData
    split
    · exact ⟨rfl, rfl⟩
    · split
      · exact ⟨rfl, rfl⟩
      · split
        · exact ⟨rfl, rfl⟩
        · exact ⟨rfl, rfl⟩
  refine ⟨(hkeep initialFeedState).1, (hkeep initialFeedState).2, ?_, ?_⟩
  · intro rs2 latest2 hlast
    have h0 : (initHistoricalData days rates initialFeedState).last_bar_time = 0 :=
      (hkeep initialFeedState).1
    simp only [fetchBarData, hlast, h0]
    split_ifs with h <;> simp <;> omega
  · intro st rs2 latest2 hlast hacc rs3 latest3 hlast3
    simp only [fetchBarData, hlast] at hacc
    by_cases h2 : latest2.time ≤ st.last_bar_time
    · rw [if_pos h2] at hacc
      simp at hacc
    · simp only [fetchBarData, hlast, hlast3, if_neg h2]
      split_ifs with h3 <;> simp <;> omega

theorem C10_witness :
    ([livebar50].getLast? = some livebar50) ∧
      ((fetchBarData (some [livebar50])
          (initHistoricalData 15 (some [prebar100]) initialFeedState)).2 = true ↔
        0 < livebar50.time) ∧
      (fetchBarData (some [livebar50])
          (initHistoricalData 15 (some [prebar100]) initialFeedState)).2 = true :=
  ⟨rfl, (C10_preload_watermarks 15 (some [prebar100])).2.2.1 [livebar50] livebar50 rfl,
    ((C10_preload_watermarks 15 (some [prebar100])).2.2.1 [livebar50] livebar50 rfl).mpr
      (by decide)⟩

/-! ## C2 -/

/-- Any request `_send_order` passes to `order_send` carries exactly the lot
and direction it was called with. -/
theorem sendOrder_reqs_volume (symbol : String) (lot : ℚ) (typ : OrderType)
    (slP : Option ℤ) (tpP : Option ℚ) (comment : String)
    (tickR : Except String (Option Tick)) (infoR : Except String (Option SymbolInfo))
    (sendR : OrderRequest → Except String (Option OrderResult)) :
    ∀ req ∈ (sendOrder symbol lot typ slP tpP comment tickR infoR sendR).reqs,
      req.volume = lot ∧ req.otype = typ := by
  intro req hreq
  simp only [sendOrder] at hreq
  split at hreq
  · simp at hreq
  · simp at hreq
  · split at hreq
    · simp at hreq
    · simp at hreq
    · split at hreq
      · simp at hreq
        subst hreq
        exact ⟨rfl, rfl⟩
      · simp at hreq
        subst hreq
        exact ⟨rfl, rfl⟩

/-- Any order submitted by the sized tail of `_open_long` has the
clamped/stepped volume. -/
theorem openLongSized_volume (p : Params) (lot1 sd : ℚ) (si : SymbolInfo)
    (b : BrokerCycle) (st : StratState) :
    ∀ req ∈ (openLongSized p lot1 sd si b st).orders, req.volume = steppedLot lot1 si := by
  intro req hreq
  simp only [openLongSized] at hreq
  split at hreq
  · simp at hreq
  · split at hreq
    · simp at hreq
    · split at hreq
      · exact (sendOrder_reqs_volume _ _ _ _ _ _ _ _ _ req hreq).1
      · split at hreq
        · exact (sendOrder_reqs_volume _ _ _ _ _ _ _ _ _ req hreq).1
        · exact (sendOrder_reqs_volume _ _ _ _ _ _ _ _ _ req hreq).1

/-- Any order submitted by `_open_long` comes from the sized tail, for some
pre-clamp lot, with the ATR finite and positive. -/
theorem openLong_orders_cases (p : Params) (pr bal : ℚ) (atr : Option ℚ)
    (b : BrokerCycle) (st : StratState) (si : SymbolInfo)
    (hsi : b.symbol_info = .ok (some si)) :
    ∀ req ∈ (openLong p pr bal atr b st).orders,
      ∃ a lot1, atr = some a ∧
        req ∈ (openLongSized p lot1 (a * p.stop_atr_mult) si b st).orders := by
  intro req hreq
  cases atr with
  | none => simp [openLong] at hreq
  | some a =>
    simp only [openLong, hsi] at hreq
    split at hreq
    · simp at hreq
    · split at hreq
      · simp at hreq
      · simp at hreq
      · split at hreq
        · simp at hreq
        · split at hreq
          · simp at hreq
          · split at hreq
            · simp at hreq
            · split at hreq
              · split at hreq
                · simp at hreq
                · simp at hreq
                · exact ⟨a, _, rfl, hreq⟩
              · exact ⟨a, _, rfl, hreq⟩

/-- Arithmetic core of the sizing invariant: when the volume minimum is an
integer multiple of the volume step and the step is a positive multiple of
0.01 (so the 2-decimal rounding is exact), the clamp/floor/round pipeline
stays inside the broker bounds and on the step grid. -/
theorem steppedLot_bounds (lot1 : ℚ) (si : SymbolInfo) (k j : ℕ)
    (hmm2 : si.volume_min ≤ si.volume_max)
    (hstep : si.volume_step = (j : ℚ) / 100) (hj : 0 < j)
    (hmin : si.volume_min = (k : ℚ) * si.volume_step) :
    si.volume_min ≤ steppedLot lot1 si ∧ steppedLot lot1 si ≤ si.volume_max ∧
      ∃ m : ℤ, steppedLot lot1 si = (m : ℚ) * si.volume_step := by
  have hstep0 : 0 < si.volume_step := by
    rw [hstep]
    exact div_pos (by exact_mod_cast hj) (by norm_num)
  have h1 : si.volume_min ≤ max si.volume_min (min lot1 si.volume_max) := le_max_left _ _
  have h2 : max si.volume_min (min lot1 si.volume_max) ≤ si.volume_max :=
    max_le hmm2 (min_le_right _ _)
  have hkq : (k : ℤ) ≤ ⌊max si.volume_min (min lot1 si.volume_max) / si.volume_step⌋ := by
    apply Int.le_floor.mpr
    rw [le_div_iff₀ hstep0]
    push_cast
    calc (k : ℚ) * si.volume_step = si.volume_min := hmin.symm
    _ ≤ max si.volume_min (min lot1 si.volume_max) := h1
  have hfl_le :
      (⌊max si.volume_min (min lot1 si.volume_max) / si.volume_step⌋ : ℚ) * si.volume_step ≤
        max si.volume_min (min lot1 si.volume_max) := by
    calc (⌊max si.volume_min (min lot1 si.volume_max) / si.volume_step⌋ : ℚ) * si.volume_step ≤
        (max si.volume_min (min lot1 si.volume_max) / si.volume_step) * si.volume_step :=
      mul_le_mul_of_nonneg_right (Int.floor_le _) (le_of_lt hstep0)
    _ = max si.volume_min (min lot1 si.volume_max) := div_mul_cancel₀ _ (ne_of_gt hstep0)
  have hfl_ge :
      si.volume_min ≤
        (⌊max si.volume_min (min lot1 si.volume_max) / si.volume_step⌋ : ℚ) * si.volume_step := by
    calc si.volume_min = (k : ℚ) * si.volume_step := hmin
    _ ≤ (⌊max si.volume_min (min lot1 si.volume_max) / si.volume_step⌋ : ℚ) * si.volume_step :=
      mul_le_mul_of_nonneg_right (by exact_mod_cast hkq) (le_of_lt hstep0)
  have hround :
      steppedLot lot1 si =
        (⌊max si.volume_min (min lot1 si.volume_max) / si.volume_step⌋ : ℚ) * si.volume_step := by
    unfold steppedLot
    apply pyRoundTo_mul_int 2 _
      (⌊max si.volume_min (min lot1 si.volume_max) / si.volume_step⌋ * (j : ℤ))
    rw [hstep]
    push_cast
    ring_nf
  refine ⟨?_, ?_, ⌊max si.volume_min (min lot1 si.volume_max) / si.volume_step⌋, hround⟩
  · rw [hround]; exact hfl_ge
  · rw [hround]; exact le_trans hfl_le h2

/-- C2 (amended): the claim's volume invariants hold under the additional,
necessary provisos that the volume minimum is an integer multiple of the
volume step and the step is a positive multiple of 0.01 (two-decimal lot
precision): every submitted open-order volume `v` then satisfies
`volumeMin ≤ v ≤ volumeMax` and `v` is an integer multiple of `volumeStep`
(exactly, in the rational model).  Without those provisos the
floor-to-step stage can leave the volume below `volumeMin` — even 0 — and
the order is still submitted, as the counterexample shows. -/
theorem C2_amended_volume_invariants (p : Params) (pr bal : ℚ) (atr : Option ℚ)
    (b : BrokerCycle) (st : StratState) (si : SymbolInfo) (k j : ℕ)
    (hsi : b.symbol_info = .ok (some si))
    (hmm2 : si.volume_min ≤ si.volume_max)
    (hstep : si.volume_step = (j : ℚ) / 100) (hj : 0 < j)
    (hmin : si.volume_min = (k : ℚ) * si.volume_step) :
    ∀ req ∈ (openLong p pr bal atr b st).orders,
      si.volume_min ≤ req.volume ∧ req.volume ≤ si.volume_max ∧
        ∃ m : ℤ, req.volume = (m : ℚ) * si.volume_step := by
  intro req hreq
  obtain ⟨a, lot1, -, hmem⟩ := openLong_orders_cases p pr bal atr b st si hsi req hreq
  rw [openLongSized_volume p lot1 (a * p.stop_atr_mult) si b st req hmem]
  exact steppedLot_bounds lot1 si k j hmm2 hstep hj hmin

/-- C2 counterexample: with `volumeMin = 0.1 ≤ volumeMax = 10` and
`volumeStep = 0.3 > 0` (the claim's only premisses on the constraints), a
sizing run submits an order of volume 0, strictly below `volumeMin` — the
clamp happens before the flooring, so the floor-to-step stage can leave the
bounds and no invariant-violating order is suppressed. -/
theorem C2_counterexample :
    siBadStep.volume_min ≤ siBadStep.volume_max ∧ 0 < siBadStep.volume_step ∧
      ((openLong defaultParams 2000 100 (some 1) c2Broker initialStratState).orders.map
          fun r => r.volume) = [0] ∧
      ¬ siBadStep.volume_min ≤ (0 : ℚ) := by
  refine ⟨by norm_num [siBadStep], by norm_num [siBadStep], ?_, by norm_num [siBadStep]⟩
  norm_num [openLong, openLongSized, sendOrder, steppedLot, rawLot, capLot, pyRoundTo,
    roundHalfEven, pyTrunc, TRADE_RETCODE_DONE, c2Broker, mkBroker, siBadStep, tickStd,
    acctStd, resDone, defaultParams, initialStratState]

theorem C2_witness :
    (c8BrokerNoMargin.symbol_info = .ok (some siStd)) ∧
      siStd.volume_min ≤ siStd.volume_max ∧
      siStd.volume_step = ((1 : ℕ) : ℚ) / 100 ∧ (0 < (1 : ℕ)) ∧
      siStd.volume_min = ((1 : ℕ) : ℚ) * siStd.volume_step ∧
      ∀ req ∈ (openLong defaultParams 2000 10000 (some 2) c8BrokerNoMargin
          initialStratState).orders,
        siStd.volume_min ≤ req.volume ∧ req.volume ≤ siStd.volume_max ∧
          ∃ m : ℤ, req.volume = (m : ℚ) * siStd.volume_step :=
  ⟨rfl, by norm_num [siStd], by norm_num [siStd], by norm_num, by norm_num [siStd],
    C2_amended_volume_invariants defaultParams 2000 10000 (some 2) c8BrokerNoMargin
      initialStratState siStd 1 1 rfl (by norm_num [siStd]) (by norm_num [siStd])
      (by norm_num) (by norm_num [siStd])⟩

/-! ## C7 -/

/-- For a BUY submission with truthy stop/target point arguments, the request
carries the stop below and the target above the ask, each offset by
points × point and rounded to the instrument digits. -/
theorem sendOrder_reqs_slTp (symbol : String) (lot : ℚ) (v : ℤ) (w : ℚ)
    (comment : String) (t : Tick) (si2 : SymbolInfo)
    (tickR : Except String (Option Tick)) (infoR : Except String (Option SymbolInfo))
    (sendR : OrderRequest → Except String (Option OrderResult))
    (ht : tickR = .ok (some t)) (hi : infoR = .ok (some si2))
    (hv : v ≠ 0) (hw : w ≠ 0) :
    ∀ req ∈ (sendOrder symbol lot .buy (some v) (some w) comment tickR infoR sendR).reqs,
      req.sl = some (pyRoundTo si2.digits (t.ask - (v : ℚ) * si2.point)) ∧
      req.tp = some (pyRoundTo si2.digits (t.ask + w * si2.point)) := by
  subst ht hi
  intro req hreq
  simp only [sendOrder] at hreq
  split at hreq
  · simp at hreq
    subst hreq
    constructor <;> simp [hv, hw]
  · simp at hreq
    subst hreq
    constructor <;> simp [hv, hw]

/-- The sized tail of `_open_long` submits (if anything) a request whose
stop/target prices are derived from
`sl_pts = max(int(stop_dist / point), stops_level + 5)` and
`tp_pts = sl_pts × takeProfitMultiple`. -/
theorem openLongSized_slTp (p : Params) (lot1 sd : ℚ) (si : SymbolInfo)
    (b : BrokerCycle) (st : StratState) (t : Tick) (si2 : SymbolInfo)
    (ht : b.tickSend 0 = .ok (some t)) (hi : b.infoSend 0 = .ok (some si2))
    (hv : max (pyTrunc (sd / si.point)) (si.trade_stops_level + 5) ≠ 0)
    (hw : ((max (pyTrunc (sd / si.point)) (si.trade_stops_level + 5) : ℤ) : ℚ) *
        p.take_profit_mult ≠ 0) :
    ∀ req ∈ (openLongSized p lot1 sd si b st).orders,
      req.sl = some (pyRoundTo si2.digits
        (t.ask - ((max (pyTrunc (sd / si.point)) (si.trade_stops_level + 5) : ℤ) : ℚ) *
          si2.point)) ∧
      req.tp = some (pyRoundTo si2.digits
        (t.ask + ((max (pyTrunc (sd / si.point)) (si.trade_stops_level + 5) : ℤ) : ℚ) *
          p.take_profit_mult * si2.point)) := by
  intro req hreq
  simp only [openLongSized] at hreq
  split at hreq
  · simp at hreq
  · split at hreq
    · simp at hreq
    · split at hreq
      · exact sendOrder_reqs_slTp _ _ _ _ _ t si2 _ _ _ ht hi hv hw req hreq
      · split at hreq
        · exact sendOrder_reqs_slTp _ _ _ _ _ t si2 _ _ _ ht hi hv hw req hreq
        · exact sendOrder_reqs_slTp _ _ _ _ _ t si2 _ _ _ ht hi hv hw req hreq

/-- C7 (amended): for every open-long order the stop distance in points is
`max(trunc(stopDistance / point), minStopLevelPoints + 5)` — Python's `int()`
truncation toward zero, not round-to-nearest — with
`stopDistance = ATR × stopMultiple`, and the take-profit points are
`stopPoints × takeProfitMultiple`; the submitted request carries these as
price offsets from the ask, rounded to the instrument digits. -/
theorem C7_amended_stop_points (p : Params) (pr bal a : ℚ) (b : BrokerCycle)
    (st : StratState) (si si2 : SymbolInfo) (t : Tick)
    (hsi : b.symbol_info = .ok (some si))
    (ht : b.tickSend 0 = .ok (some t))
    (hi : b.infoSend 0 = .ok (some si2))
    (hv : max (pyTrunc (a * p.stop_atr_mult / si.point)) (si.trade_stops_level + 5) ≠ 0)
    (hw : ((max (pyTrunc (a * p.stop_atr_mult / si.point)) (si.trade_stops_level + 5) : ℤ) : ℚ) *
        p.take_profit_mult ≠ 0) :
    ∀ req ∈ (openLong p pr bal (some a) b st).orders,
      req.sl = some (pyRoundTo si2.digits
        (t.ask -
          ((max (pyTrunc (a * p.stop_atr_mult / si.point)) (si.trade_stops_level + 5) : ℤ) : ℚ) *
          si2.point)) ∧
      req.tp = some (pyRoundTo si2.digits
        (t.ask +
          ((max (pyTrunc (a * p.stop_atr_mult / si.point)) (si.trade_stops_level + 5) : ℤ) : ℚ) *
          p.take_profit_mult * si2.point)) := by
  intro req hreq
  obtain ⟨a2, lot1, ha2, hmem⟩ :=
    openLong_orders_cases p pr bal (some a) b st si hsi req hreq
  obtain rfl : a = a2 := Option.some.inj ha2
  exact openLongSized_slTp p lot1 (a * p.stop_atr_mult) si b st t si2 ht hi hv hw req hmem

/-- C7 counterexample: with ATR 3.95, stop multiple 2 (stop distance 7.9),
point 1 and stop level 0, the submitted stop sits 7 points below the ask
(truncation of 7.9), whereas the claimed formula with `round` gives 8 points:
the resulting stop prices differ (1993 vs 1992). -/
theorem C7_counterexample :
    ((openLong defaultParams 2000 10000 (some (79 / 20)) c7Broker initialStratState).orders.map
        fun r => r.sl) = [some 1993] ∧
      slPointsSpec ((79 / 20) * defaultParams.stop_atr_mult) si7 = 8 ∧
      pyRoundTo si7.digits (tickStd.ask - (8 : ℚ) * si7.point) = 1992 ∧
      some (1993 : ℚ) ≠ some (1992 : ℚ) := by
  refine ⟨?_, ?_, ?_, by norm_num⟩
  · norm_num [openLong, openLongSized, sendOrder, steppedLot, rawLot, capLot, pyRoundTo,
      roundHalfEven, pyTrunc, TRADE_RETCODE_DONE, c7Broker, mkBroker, si7, tickStd,
      acctStd, resDone, defaultParams, initialStratState]
  · norm_num [slPointsSpec, roundHalfEven, si7, defaultParams]
  · norm_num [pyRoundTo, roundHalfEven, si7, tickStd]

theorem C7_witness :
    (c7Broker.symbol_info = .ok (some si7)) ∧
      max (pyTrunc ((79 / 20) * defaultParams.stop_atr_mult / si7.point))
        (si7.trade_stops_level + 5) ≠ 0 ∧
      ∀ req ∈ (openLong defaultParams 2000 10000 (some (79 / 20)) c7Broker
          initialStratState).orders,
        req.sl = some (pyRoundTo si7.digits
          (tickStd.ask -
            ((max (pyTrunc ((79 / 20) * defaultParams.stop_atr_mult / si7.point))
              (si7.trade_stops_level + 5) : ℤ) : ℚ) * si7.point)) ∧
        req.tp = some (pyRoundTo si7.digits
          (tickStd.ask +
            ((max (pyTrunc ((79 / 20) * defaultParams.stop_atr_mult / si7.point))
              (si7.trade_stops_level + 5) : ℤ) : ℚ) *
            defaultParams.take_profit_mult * si7.point)) :=
  ⟨rfl, by norm_num [pyTrunc, si7, defaultParams],
    C7_amended_stop_points defaultParams 2000 10000 (79 / 20) c7Broker initialStratState
      si7 si7 tickStd rfl rfl rfl
      (by norm_num [pyTrunc, si7, defaultParams])
      (by norm_num [pyTrunc, si7, defaultParams])⟩

/-! ## C4 -/

/-- The direction `_close_all` chooses is the opposing one. -/
theorem ite_opposite (x : OrderType) :
    (if x = OrderType.buy then OrderType.sell else OrderType.buy) = opposite x := by
  cases x <;> rfl

/-- When the tick and symbol-info fetches return values and `order_send`
returns a result, `_send_order` returns that result and submits exactly one
request, with the lot and direction it was called with. -/
theorem sendOrder_success (symbol : String) (lot : ℚ) (typ : OrderType)
    (slP : Option ℤ) (tpP : Option ℚ) (comment : String) (t : Tick) (si2 : SymbolInfo)
    (r : Option OrderResult)
    (tickR : Except String (Option Tick)) (infoR : Except String (Option SymbolInfo))
    (sendR : OrderRequest → Except String (Option OrderResult))
    (ht : tickR = .ok (some t)) (hi : infoR = .ok (some si2))
    (hs : ∀ req, sendR req = .ok r) :
    ∃ req, sendOrder symbol lot typ slP tpP comment tickR infoR sendR =
      { res := r, reqs := [req], logs := [] } ∧ req.volume = lot ∧ req.otype = typ := by
  subst ht hi
  simp only [sendOrder, hs]
  exact ⟨_, rfl, rfl, rfl⟩

/-- Inductive contract of the `_close_all` loop: one opposing order per
remaining position, sized at that position's volume, the counter decremented
(floored at 0) once per `TRADE_RETCODE_DONE` result, and the debounce state
untouched. -/
theorem closeAllLoop_spec (p : Params) (reason : String) (b : BrokerCycle)
    (R : ℕ → OrderResult)
    (ht : ∀ i, ∃ t, b.tickSend i = .ok (some t))
    (hi : ∀ i, ∃ si, b.infoSend i = .ok (some si))
    (hs : ∀ i req, b.orderSend i req = .ok (some (R i))) :
    ∀ (ps : List Position) (i0 : ℕ) (st : StratState) (acc : List OrderRequest)
      (lgs : List String), 0 ≤ st.position_count →
      ∃ (reqs2 : List OrderRequest) (st2 : StratState) (lgs2 : List String),
        closeAllLoop p reason b i0 ps st acc lgs =
          .ok { state := st2, orders := acc ++ reqs2, logs := lgs2 } ∧
        reqs2.length = ps.length ∧
        (∀ (jj : ℕ) (h1 : jj < reqs2.length) (h2 : jj < ps.length),
          (reqs2.get ⟨jj, h1⟩).volume = (ps.get ⟨jj, h2⟩).volume ∧
          (reqs2.get ⟨jj, h1⟩).otype = opposite (ps.get ⟨jj, h2⟩).ptype) ∧
        st2.position_count = max 0 (st.position_count - (doneCnt R i0 ps.length : ℤ)) ∧
        st2.last_signal_minute = st.last_signal_minute := by
  intro ps
  induction ps with
  | nil =>
    intro i0 st acc lgs hc
    refine ⟨[], st, lgs, ?_, rfl, ?_, ?_, rfl⟩
    · simp [closeAllLoop]
    · intro jj h1 h2
      exact absurd h1 (by simp)
    · simp [doneCnt]
      omega
  | cons pos rest ih =>
    intro i0 st acc lgs hc
    obtain ⟨t, htt⟩ := ht i0
    obtain ⟨si2, hii⟩ := hi i0
    obtain ⟨req, hsend, hvol, htyp⟩ :=
      sendOrder_success p.symbol pos.volume (if pos.ptype = .buy then .sell else .buy)
        none none reason t si2 (some (R i0)) _ _ _ htt hii (hs i0)
    by_cases hdone : (R i0).retcode = TRADE_RETCODE_DONE
    · obtain ⟨reqs2, st2, lgs2, heq, hlen, hfields, hcount, hlast⟩ :=
        ih (i0 + 1) { st with position_count := max 0 (st.position_count - 1) }
          (acc ++ [req]) (lgs ++ [] ++ ["Closed: " ++ reason]) (by simp)
      refine ⟨req :: reqs2, st2, lgs2, ?_, by simp [hlen], ?_, ?_, hlast⟩
      · simp only [closeAllLoop, hsend, hdone, if_true]
        rw [heq]
        simp
      · intro jj h1 h2
        cases jj with
        | zero => exact ⟨hvol, htyp.trans (ite_opposite pos.ptype)⟩
        | succ jj =>
          exact hfields jj (Nat.lt_of_succ_lt_succ h1) (Nat.lt_of_succ_lt_succ h2)
      · rw [hcount]
        have hD : doneCnt R i0 (pos :: rest).length = 1 + doneCnt R (i0 + 1) rest.length := by
          simp [doneCnt, hdone]
        rw [hD]
        simp only [StratState.position_count]
        omega
    · obtain ⟨reqs2, st2, lgs2, heq, hlen, hfields, hcount, hlast⟩ :=
        ih (i0 + 1) st (acc ++ [req])
          (lgs ++ [] ++ ["Close failed: " ++ (R i0).comment]) hc
      refine ⟨req :: reqs2, st2, lgs2, ?_, by simp [hlen], ?_, ?_, hlast⟩
      · simp only [closeAllLoop, hsend, hdone, if_false]
        rw [heq]
        simp
      · intro jj h1 h2
        cases jj with
        | zero => exact ⟨hvol, htyp.trans (ite_opposite pos.ptype)⟩
        | succ jj =>
          exact hfields jj (Nat.lt_of_succ_lt_succ h1) (Nat.lt_of_succ_lt_succ h2)
      · rw [hcount]
        have hD : doneCnt R i0 (pos :: rest).length = doneCnt R (i0 + 1) rest.length := by
          simp [doneCnt, hdone]
        rw [hD]

/-- C4: whenever a close-all decision executes and every broker call during
it returns a value (tick, symbol info, and an order result `R i` per send),
exactly one opposing market order is submitted for each position the broker
reports open on the symbol, sized at exactly that position's volume; the
local position count is decremented only once per result the broker confirms
as `TRADE_RETCODE_DONE`, never below 0, and the debounce state is untouched. -/
theorem C4_close_all_reconciles (p : Params) (reason : String) (b : BrokerCycle)
    (st : StratState) (ps : List Position) (R : ℕ → OrderResult)
    (hps : b.positions_get = .ok (some ps))
    (ht : ∀ i, ∃ t, b.tickSend i = .ok (some t))
    (hi : ∀ i, ∃ si, b.infoSend i = .ok (some si))
    (hs : ∀ i req, b.orderSend i req = .ok (some (R i)))
    (hc : 0 ≤ st.position_count) :
    ∃ (reqs : List OrderRequest) (st2 : StratState) (lgs : List String),
      closeAll p reason b st = .ok { state := st2, orders := reqs, logs := lgs } ∧
      reqs.length = ps.length ∧
      (∀ (jj : ℕ) (h1 : jj < reqs.length) (h2 : jj < ps.length),
        (reqs.get ⟨jj, h1⟩).volume = (ps.get ⟨jj, h2⟩).volume ∧
        (reqs.get ⟨jj, h1⟩).otype = opposite (ps.get ⟨jj, h2⟩).ptype) ∧
      st2.position_count = max 0 (st.position_count - (doneCnt R 0 ps.length : ℤ)) ∧
      st2.last_signal_minute = st.last_signal_minute := by
  by_cases hemp : ps.isEmpty
  · obtain rfl : ps = [] := List.isEmpty_iff.mp hemp
    refine ⟨[], st, [], ?_, rfl, ?_, ?_, rfl⟩
    · simp [closeAll, hps]
    · intro jj h1 h2
      exact absurd h1 (by simp)
    · simp [doneCnt]
      omega
  · obtain ⟨reqs2, st2, lgs2, heq, hlen, hfields, hcount, hlast⟩ :=
      closeAllLoop_spec p reason b R ht hi hs ps 0 st [] [] hc
    refine ⟨reqs2, st2, lgs2, ?_, hlen, hfields, hcount, hlast⟩
    simp only [closeAll, hps, hemp, if_false]
    rw [heq]
    simp

theorem C4_witness :
    (c4Broker.positions_get = .ok (some [posBuyHalf])) ∧
      posBuyHalf.volume = 1 / 2 ∧ posBuyHalf.ptype = OrderType.buy ∧
      stOne.position_count = 1 ∧
      doneCnt (fun _ => resDone) 0 1 = 1 ∧ max 0 ((1 : ℤ) - 1) = 0 ∧
      ∃ (reqs : List OrderRequest) (st2 : StratState) (lgs : List String),
        closeAll defaultParams "DeathCross" c4Broker stOne =
          .ok { state := st2, orders := reqs, logs := lgs } ∧
        reqs.length = [posBuyHalf].length ∧
        (∀ (jj : ℕ) (h1 : jj < reqs.length) (h2 : jj < [posBuyHalf].length),
          (reqs.get ⟨jj, h1⟩).volume = ([posBuyHalf].get ⟨jj, h2⟩).volume ∧
          (reqs.get ⟨jj, h1⟩).otype = opposite (([posBuyHalf].get ⟨jj, h2⟩).ptype)) ∧
        st2.position_count =
          max 0 (stOne.position_count - (doneCnt (fun _ => resDone) 0 [posBuyHalf].length : ℤ)) ∧
        st2.last_signal_minute = stOne.last_signal_minute :=
  ⟨rfl, rfl, rfl, rfl, by decide, by decide,
    C4_close_all_reconciles defaultParams "DeathCross" c4Broker stOne [posBuyHalf]
      (fun _ => resDone) rfl (fun _ => ⟨tickStd, rfl⟩) (fun _ => ⟨siStd, rfl⟩)
      (fun _ _ => rfl) (by norm_num [stOne])⟩

/-! ## C3 -/

/-- A cycle that ends in a propagating exception got past the minute-bucket
guard (the guard returns a no-op before anything can raise). -/
theorem driverCycle_error_guard (p : Params) (inp : CycleInput) (b : BrokerCycle)
    (st : StratState) (e : String) (h : driverCycle p inp b st = .error e) :
    st.last_signal_minute ≠ some (minuteBucket inp.time) := by
  intro hm
  unfold driverCycle at h
  split at h
  · exact absurd h (by simp)
  · unfold nextCycle at h
    rw [if_pos hm] at h
    exact absurd h (by simp)

/-- A cycle that takes no non-`None` branch leaves the strategy state
exactly as it was. -/
theorem driverCycle_not_acted (p : Params) (inp : CycleInput) (b : BrokerCycle)
    (st : StratState) (out : CycleOut)
    (h : driverCycle p inp b st = .ok out) (ha : out.acted = false) :
    out.state = st := by
  unfold driverCycle nextCycle at h
  repeat' split at h
  all_goals first
    | (injection h with h2; subst h2; rfl)
    | (injection h with h2; subst h2; simp at ha)
    | injection h

/-- A cycle that attempted a non-`None` decision records its minute bucket
as acted on (the assignment after `_open_long`/`_close_all`). -/
theorem driverCycle_acted_minute (p : Params) (inp : CycleInput) (b : BrokerCycle)
    (st : StratState) (out : CycleOut)
    (h : driverCycle p inp b st = .ok out) (ha : out.acted = true) :
    out.state.last_signal_minute = some (minuteBucket inp.time) := by
  unfold driverCycle nextCycle at h
  repeat' split at h
  all_goals first
    | (injection h with h2; subst h2; rfl)
    | (injection h with h2; subst h2; simp at ha)
    | injection h

/-- A cycle that attempted a non-`None` decision got past the minute-bucket
guard. -/
theorem driverCycle_acted_guard (p : Params) (inp : CycleInput) (b : BrokerCycle)
    (st : StratState) (out : CycleOut)
    (h : driverCycle p inp b st = .ok out) (ha : out.acted = true) :
    st.last_signal_minute ≠ some (minuteBucket inp.time) := by
  intro hm
  unfold driverCycle at h
  split at h
  · injection h with h2; subst h2; simp at ha
  · unfold nextCycle at h
    rw [if_pos hm] at h
    injection h with h2; subst h2; simp at ha

/-- Debounce invariant: along any run whose input minute buckets are
non-decreasing (as delivered by the feed's monotonic timestamps), the buckets
of the cycles that attempt a non-`None` decision are strictly increasing —
the recorded last-acted bucket stays below every later attempt. -/
theorem runTrace_attempts_increasing (p : Params) :
    ∀ (tr : List (CycleInput × BrokerCycle)) (st : StratState),
      List.Pairwise (· ≤ ·) (tr.map fun ib => minuteBucket ib.1.time) →
      (∀ m, st.last_signal_minute = some m →
        ∀ ib ∈ tr, m ≤ minuteBucket ib.1.time) →
      List.Pairwise (· < ·) (lastOpt st ++ attemptedBuckets (runTrace p tr st).2) := by
  intro tr
  induction tr with
  | nil =>
    intro st hmono hlast
    cases hl : st.last_signal_minute <;>
      simp [runTrace, attemptedBuckets, lastOpt, hl]
  | cons ib rest ih =>
    intro st hmono hlast
    rw [List.map_cons, List.pairwise_cons] at hmono
    obtain ⟨hhead, htail⟩ := hmono
    cases hd : driverCycle p ib.1 ib.2 st with
    | error e =>
      have hne := driverCycle_error_guard p ib.1 ib.2 st e hd
      simp only [runTrace, hd]
      cases hl : st.last_signal_minute with
      | none => simp [lastOpt, attemptedBuckets, hl]
      | some m =>
        have hm1 : m ≤ minuteBucket ib.1.time := hlast m hl ib (List.mem_cons_self ib rest)
        have hm2 : m ≠ minuteBucket ib.1.time := fun hEq => hne (hEq ▸ hl)
        simp [lastOpt, attemptedBuckets, hl]
        exact lt_of_le_of_ne hm1 hm2
    | ok out =>
      cases hact : out.acted with
      | false =>
        have hst : out.state = st := driverCycle_not_acted p ib.1 ib.2 st out hd hact
        simp only [runTrace, hd]
        have hab : attemptedBuckets
            ({ bucket := minuteBucket ib.1.time, attempted := out.acted } ::
              (runTrace p rest out.state).2) =
            attemptedBuckets ((runTrace p rest out.state).2) := by
          simp [attemptedBuckets, hact]
        rw [hab, hst]
        exact ih st htail (fun m hm ib2 hib2 => hlast m hm ib2 (List.mem_cons_of_mem ib hib2))
      | true =>
        have hset := driverCycle_acted_minute p ib.1 ib.2 st out hd hact
        have hne := driverCycle_acted_guard p ib.1 ib.2 st out hd hact
        have hrest : ∀ m, out.state.last_signal_minute = some m →
            ∀ ib2 ∈ rest, m ≤ minuteBucket ib2.1.time := by
          intro m hm ib2 hib2
          rw [hset] at hm
          obtain rfl : minuteBucket ib.1.time = m := Option.some.inj hm
          exact hhead _ (List.mem_map_of_mem _ hib2)
        have hih := ih out.state htail hrest
        have hlo : lastOpt out.state = [minuteBucket ib.1.time] := by
          simp [lastOpt, hset]
        rw [hlo] at hih
        simp only [runTrace, hd]
        have hab : attemptedBuckets
            ({ bucket := minuteBucket ib.1.time, attempted := out.acted } ::
              (runTrace p rest out.state).2) =
            minuteBucket ib.1.time :: attemptedBuckets ((runTrace p rest out.state).2) := by
          simp [attemptedBuckets, hact]
        rw [hab]
        cases hl : st.last_signal_minute with
        | none => simpa [lastOpt, hl] using hih
        | some m =>
          have hm1 : m ≤ minuteBucket ib.1.time := hlast m hl ib (List.mem_cons_self ib rest)
          have hm2 : m ≠ minuteBucket ib.1.time := fun hEq => hne (hEq ▸ hl)
          have hmb : m < minuteBucket ib.1.time := lt_of_le_of_ne hm1 hm2
          simp only [lastOpt, hl, List.cons_append, List.nil_append]
          rw [List.pairwise_cons]
          refine ⟨?_, by simpa using hih⟩
          intro x hx
          rcases List.mem_cons.mp hx with rfl | hx2
          · exact hmb
          · have hbx : minuteBucket ib.1.time < x :=
              (List.pairwise_cons.mp (by simpa using hih)).1 x hx2
            exact lt_trans hmb hbx

/-- C3: for any run of the decision loop over inputs whose minute buckets
are non-decreasing (the live feed delivers strictly increasing timestamps),
at most one cycle per minute bucket attempts execution of a non-`None`
decision; every later cycle in that bucket is a no-op, even when the
attempt's execution failed, because the bucket is recorded whenever the
attempt returns (and a propagating exception ends the run). -/
theorem C3_at_most_one_attempt_per_bucket (p : Params)
    (tr : List (CycleInput × BrokerCycle))
    (hmono : List.Pairwise (· ≤ ·) (tr.map fun ib => minuteBucket ib.1.time)) :
    ∀ bkt, (attemptedBuckets (runTrace p tr initialStratState).2).count bkt ≤ 1 := by
  have h := runTrace_attempts_increasing p tr initialStratState hmono
    (fun m hm => by simp [initialStratState] at hm)
  have h2 : List.Pairwise (· < ·)
      (attemptedBuckets (runTrace p tr initialStratState).2) := by
    simpa [lastOpt, initialStratState] using h
  have h3 : (attemptedBuckets (runTrace p tr initialStratState).2).Nodup :=
    h2.imp fun hlt => ne_of_lt hlt
  intro bkt
  exact List.nodup_iff_count_le_one.mp h3 bkt

theorem C3_witness :
    List.Pairwise (· ≤ ·)
      ([(inpDeath, c3Broker), (inpDeath2, c3Broker)].map fun ib => minuteBucket ib.1.time) ∧
      ∀ bkt,
        (attemptedBuckets
          (runTrace defaultParams [(inpDeath, c3Broker), (inpDeath2, c3Broker)]
            initialStratState).2).count bkt ≤ 1 :=
  ⟨by decide,
    C3_at_most_one_attempt_per_bucket defaultParams
      [(inpDeath, c3Broker), (inpDeath2, c3Broker)] (by decide)⟩

end MT5Live
